import Mathlib

/-
  Verification development for the titato XO engine.

  The Game state machine is embedded from src/game/core/game_xo.py.
  Collaborators that the repository keeps in other modules (Table, the
  default checker, GameState) are modelled from the specification, as
  noted on each definition.
-/

namespace TitatoXO

/-- A player mark.  The repository's Symbol class wraps a printable mark;
we represent it by its mark. -/
abbrev Symbol := String

/-- From src/game/core/table/annotations.py: `CellIndex = tuple[int, int]`
(index_row, index_column). -/
abbrev CellIndex := Nat × Nat

/-- From src/game/core/table/annotations.py: `CombType = tuple[CellIndex, ...]`. -/
abbrev CombType := List CellIndex

/-- From src/game/core/table/annotations.py: `CombsType = tuple[CombType, ...]`. -/
abbrev CombsType := List CombType

/-- Modelled from the spec: `ResultCode` enum (`IN_PROGRESS`, `WINNER`,
`ALL_CELLS_USED`); the class lives in game/core/result.py which is not in src. -/
inductive ResultCode where
  | IN_PROGRESS
  | WINNER
  | ALL_CELLS_USED
deriving DecidableEq, Repr

/-- Players are identified by their index in the game's player store; the
Python code passes `Player` objects by reference, which this index models. -/
abbrev PlayerId := Nat

/-- Modelled from the spec: a Player exposes `symbol`, `count_steps` and
`add_count_step()`; the class lives in game/core/players/player.py which is
not in src. -/
structure Player where
  symbol : Symbol
  count_steps : Nat
deriving DecidableEq, Repr

/-- Modelled from the spec: `GameState` holds `code`, `win_player`,
`win_combination`, starting at `IN_PROGRESS` with no winner; the class lives
in game/core/result.py which is not in src.  `win_player` stores a reference
to the winning player, modelled by its `PlayerId`. -/
structure GameState where
  code : ResultCode := .IN_PROGRESS
  win_player : Option PlayerId := none
  win_combination : Option CombType := none
deriving DecidableEq, Repr

/-- Modelled from the spec: a Cell holds `row`, `column` and an occupancy
symbol or empty; the class lives in game/core/table/cell.py which is not in src. -/
structure Cell where
  row : Nat
  column : Nat
  symbol : Option Symbol
deriving DecidableEq, Repr

/-- Modelled from the spec: board parameters, `size` (N) and the run length
`COMBINATION` (K) that src/game/core/game_xo.py reads as `table.param.COMBINATION`. -/
structure TableParam where
  size : Nat
  COMBINATION : Nat
deriving DecidableEq, Repr

/-- Modelled from the spec: a Table owns the grid of Cells (`game_field`),
its parameters, and the precomputed combination set; the class lives in
game/core/table/table.py which is not in src. -/
structure Table where
  param : TableParam
  game_field : List (List Cell)
  combinations : CombsType
deriving DecidableEq, Repr

/-- Modelled from the spec: `InvalidMoveError` distinguishes an out-of-bounds
index from an already-occupied cell; raised by `Table.set_symbol_cell`. -/
inductive InvalidMoveError where
  | index_out_of_bounds (index_row index_column : Nat)
  | cell_occupied (index_row index_column : Nat)
deriving DecidableEq, Repr

/-- The cell stored at (r, c), when both indices are in bounds. -/
def Table.cell? (t : Table) (r c : Nat) : Option Cell :=
  (t.game_field[r]?).bind (fun row => row[c]?)

/-- Modelled from the spec: `set_symbol_cell(row, column, symbol)` fails with
`InvalidMoveError` on an out-of-bounds index or an occupied cell and leaves
the grid unchanged; on success the target Cell transitions from empty to
`symbol`. -/
def Table.set_symbol_cell (t : Table) (index_row index_column : Nat) (symbol : Symbol) :
    Except InvalidMoveError Table :=
  match t.cell? index_row index_column with
  | none => .error (.index_out_of_bounds index_row index_column)
  | some cell =>
    match cell.symbol with
    | some _ => .error (.cell_occupied index_row index_column)
    | none =>
      let newRow := (t.game_field.getD index_row []).set index_column
        { cell with symbol := some symbol }
      .ok { t with game_field := t.game_field.set index_row newRow }

/-- Modelled from the spec: `count_free_cells` returns the number of Cells
still empty. -/
def Table.count_free_cells (t : Table) : Nat :=
  (t.game_field.map (fun row => (row.filter (fun cell => cell.symbol = none)).length)).sum

/-- The symbol occupying a grid position, if the position is in bounds and
occupied. -/
def symbol_at (table : List (List Cell)) (idx : CellIndex) : Option Symbol :=
  match (table[idx.1]?).bind (fun row => row[idx.2]?) with
  | some cell => cell.symbol
  | none => none

/-- Modelled from the spec: the default checker `result_player(symbol, table,
combinations)` iterates the combination set and returns the first Combination
whose every listed CellIndex holds `symbol`, or none; the class lives in
game/core/cheker.py which is not in src. -/
def CheckerDefault.result_player (symbol : Symbol) (table : List (List Cell))
    (combinations : CombsType) : Option CombType :=
  combinations.find? (fun comb => comb.all (fun idx => symbol_at table idx == some symbol))

/-- Embedded from src/game/core/game_xo.py: a Game owns the players, the
Table and the GameState, plus the injected checker and AI strategy (both
pluggable capabilities, stored as functions of exactly the arguments the
source passes them). -/
structure Game where
  players : List Player
  table : Table
  game_state : GameState := {}
  checker : Symbol → List (List Cell) → CombsType → Option CombType :=
    CheckerDefault.result_player
  ai : Symbol → List (List Cell) → CombsType → CellIndex

/-- Look up a player object by its id (reference). -/
def Game.player (g : Game) (pid : PlayerId) : Player :=
  g.players.getD pid ⟨"", 0⟩

/-- From game_xo.py: `game_field` returns the playing field from the Table. -/
def Game.game_field (g : Game) : List (List Cell) :=
  g.table.game_field

/-- Modelled from the spec: `player.add_count_step()` adds one step to the
player's counter; Player lives outside src.  Expressed as an update of the
player store at the given reference. -/
def Game.add_count_step (g : Game) (pid : PlayerId) : Game :=
  { g with players :=
      g.players.set pid { g.player pid with count_steps := (g.player pid).count_steps + 1 } }

/-- From game_xo.py `Game.step`: places the player's symbol via
`Table.set_symbol_cell`, then increments the player's step counter.  The
second component is the escaped exception, if any; the first is the state
after the call (unchanged when `set_symbol_cell` raises, since it raises
before mutating and the increment is never reached). -/
def Game.step (g : Game) (index_row index_column : Nat) (pid : PlayerId) :
    Game × Option InvalidMoveError :=
  match g.table.set_symbol_cell index_row index_column (g.player pid).symbol with
  | .error e => (g, some e)
  | .ok t => (({ g with table := t }).add_count_step pid, none)

/-- From game_xo.py `Game.set_winner`: replaces the result code, adds the
winning player reference and the winning combination (per the GameBase
docstring; `GameState.update` itself lives outside src). -/
def Game.set_winner (g : Game) (pid : PlayerId) (win_combination : CombType) : Game :=
  { g with game_state :=
      { g.game_state with
          code := .WINNER
          win_player := some pid
          win_combination := some win_combination } }

/-- From game_xo.py `Game.set_draw`: replaces the result code only (per the
GameBase docstring). -/
def Game.set_draw (g : Game) : Game :=
  { g with game_state := { g.game_state with code := .ALL_CELLS_USED } }

/-- From game_xo.py `Game._get_win_comb`: asks the checker for the player's
symbol against the current field and the Table's combinations. -/
def Game.get_win_comb (g : Game) (pid : PlayerId) : Option CombType :=
  g.checker (g.player pid).symbol g.table.game_field g.table.combinations

/-- From game_xo.py `Game._get_draw_result`: true exactly when
`table.count_free_cells == 0` (the Python returns True or falls through to None). -/
def Game.get_draw_result (g : Game) : Bool :=
  g.table.count_free_cells == 0

/-- From game_xo.py `Game.result`: gated on
`player.count_steps >= table.param.COMBINATION`; the walrus
`if win_comb := self._get_win_comb(...)` tests Python truthiness, so both a
missing combination and an empty tuple fall through to the draw check.
Returns `self.game_state` (first component) next to the post-call game. -/
def Game.result (g : Game) (pid : PlayerId) : GameState × Game :=
  let post :=
    if g.table.param.COMBINATION ≤ (g.player pid).count_steps then
      match g.get_win_comb pid with
      | some (idx :: rest) => g.set_winner pid (idx :: rest)
      | some [] => if g.get_draw_result then g.set_draw else g
      | none => if g.get_draw_result then g.set_draw else g
    else g
  (post.game_state, post)

/-- From game_xo.py `Game.step_result`: `step` then `result`, returning what
`result` returns; when `step` raises, the exception propagates and `result`
is never reached. -/
def Game.step_result (g : Game) (index_row index_column : Nat) (pid : PlayerId) :
    Game × Except InvalidMoveError GameState :=
  match g.step index_row index_column pid with
  | (g1, some e) => (g1, .error e)
  | (g1, none) =>
    let r := g1.result pid
    (r.2, .ok r.1)

/-- From game_xo.py `Game.ai_get_step`: delegates to the AI strategy with the
player's symbol, the current field and the Table's combinations. -/
def Game.ai_get_step (g : Game) (pid : PlayerId) : CellIndex :=
  g.ai (g.player pid).symbol g.game_field g.table.combinations

/-- From game_xo.py `Game.ai_step`: computes `ai_get_step` then applies `step`. -/
def Game.ai_step (g : Game) (pid : PlayerId) : Game × Option InvalidMoveError :=
  let idx := g.ai_get_step pid
  g.step idx.1 idx.2 pid

/-- From game_xo.py `Game.ai_step_result`: computes `ai_get_step` then applies
`step_result`. -/
def Game.ai_step_result (g : Game) (pid : PlayerId) : Game × Except InvalidMoveError GameState :=
  let idx := g.ai_get_step pid
  g.step_result idx.1 idx.2 pid

/-- Modelled from the spec: construction-time combination generation, a pure
function of `size` and `run_length` (game/core/table/table.py is not in src).
Enumerates every maximal window of `run_length` consecutive cells along each
row, each column, and both diagonal directions; for a row of length N and run
K there are N−K+1 windows, and (N−K+1)^2 windows per diagonal direction. -/
def gen_combinations (size run_length : Nat) : CombsType :=
  let w := size - run_length + 1
  let horiz := (List.range size).flatMap (fun r =>
    (List.range w).map (fun c0 => (List.range run_length).map (fun i => (r, c0 + i))))
  let vert := (List.range size).flatMap (fun c =>
    (List.range w).map (fun r0 => (List.range run_length).map (fun i => (r0 + i, c))))
  let diag1 := (List.range w).flatMap (fun r0 =>
    (List.range w).map (fun c0 => (List.range run_length).map (fun i => (r0 + i, c0 + i))))
  let diag2 := (List.range w).flatMap (fun r0 =>
    (List.range w).map (fun c0 =>
      (List.range run_length).map (fun i => (r0 + run_length - 1 - i, c0 + i))))
  horiz ++ vert ++ diag1 ++ diag2

/-- Modelled from the spec: Table construction builds the N×N grid of empty
Cells and derives the combination set once. -/
def mkTable (size run_length : Nat) : Table :=
  { param := { size := size, COMBINATION := run_length }
    game_field := (List.range size).map (fun r =>
      (List.range size).map (fun c => { row := r, column := c, symbol := none }))
    combinations := gen_combinations size run_length }

/-- Runs a sequence of `Game.step` calls; `none` if any move raised, so a
`some` outcome certifies the final game is reachable from the start by legal
moves. -/
def play (g : Game) : List (Nat × Nat × PlayerId) → Option Game
  | [] => some g
  | (r, c, pid) :: rest =>
    match g.step r c pid with
    | (g1, none) => play g1 rest
    | (_, some _) => none

/-- Modelled from the spec's open question: the variant of `result` that
checks the winning combination and the draw condition unconditionally,
without the `count_steps >= run_length` gate, for comparison with
`Game.result`. -/
def Game.result_ungated (g : Game) (pid : PlayerId) : GameState × Game :=
  let post :=
    match g.get_win_comb pid with
    | some (idx :: rest) => g.set_winner pid (idx :: rest)
    | some [] => if g.get_draw_result then g.set_draw else g
    | none => if g.get_draw_result then g.set_draw else g
  (post.game_state, post)

/-- An upper bound on the column indices present in the grid. -/
def row_len_bound (t : Table) : Nat :=
  (t.game_field.map List.length).foldr Nat.max 0

/-- The number of grid positions holding the given symbol. -/
def Table.symbol_count (t : Table) (sym : Symbol) : Nat :=
  ((Finset.range t.game_field.length ×ˢ Finset.range (row_len_bound t)).filter
    (fun idx => symbol_at t.game_field idx = some sym)).card

/-- A standard two-player 3×3 game, as constructed by the repository's
defaults (default checker; the AI strategy is pluggable, a trivial one is
injected since no claim exercises it). -/
def game_XO : Game :=
  { players := [⟨"X", 0⟩, ⟨"O", 0⟩], table := mkTable 3 3, ai := fun _ _ _ => (0, 0) }

/-- Five legal alternating moves: X takes all of row 0, O takes two cells of
row 1. -/
def c1_g5 : Game :=
  (play game_XO [(0, 0, 0), (1, 0, 1), (0, 1, 0), (1, 1, 1), (0, 2, 0)]).getD game_XO

/-- The game after `result` has declared player 0 ("X") the winner. -/
def c1_won : Game :=
  (c1_g5.result 0).2

/-- Continuing past the terminal state: O completes row 1 and `result` is
called for O. -/
def c1_after : Game :=
  (((play c1_won [(1, 2, 1)]).getD game_XO).result 1).2

/-- A four-player 3×3 game (players are pluggable; the rotation order is
external to Game). -/
def c4_init : Game :=
  { players := [⟨"A", 0⟩, ⟨"B", 0⟩, ⟨"C", 0⟩, ⟨"D", 0⟩], table := mkTable 3 3,
    ai := fun _ _ _ => (0, 0) }

/-- Nine legal moves in strict rotation A,B,C,D,A,B,C,D,A filling the board
with no winning line for anyone. -/
def c4_moves : List (Nat × Nat × PlayerId) :=
  [(0, 0, 0), (0, 2, 1), (1, 1, 2), (2, 0, 3), (0, 1, 0), (1, 2, 1), (2, 1, 2), (2, 2, 3),
    (1, 0, 0)]

/-- The reachable full board with no winner; player 1 has made only 2 moves. -/
def c4_full : Game :=
  (play c4_init c4_moves).getD c4_init

/-- The table obtained by X's successful first move on the empty board. -/
def c6w_t : Table :=
  match game_XO.table.set_symbol_cell 0 0 "X" with
  | .ok t => t
  | .error _ => game_XO.table

/-- Helper: when the `count_steps` gate fails, `result` returns the game
state unchanged. -/
theorem result_of_gate_fail (g : Game) (pid : PlayerId)
    (hn : ¬ g.table.param.COMBINATION ≤ (g.player pid).count_steps) :
    g.result pid = (g.game_state, g) := by
  unfold Game.result
  rw [if_neg hn]

/-- C3: for every call `result(player)` where `player.count_steps <
run_length`, the game state is left entirely unchanged and returned as is;
the outcome does not depend on the checker (it is not consulted), and since
the statement holds for every game it holds for every table contents. -/
theorem c3_result_gate_skip (g : Game) (pid : PlayerId)
    (h : (g.player pid).count_steps < g.table.param.COMBINATION) :
    g.result pid = (g.game_state, g) ∧
    ∀ ck, ({ g with checker := ck } : Game).result pid =
      (g.game_state, { g with checker := ck }) := by
  have hn : ¬ g.table.param.COMBINATION ≤ (g.player pid).count_steps :=
    Nat.not_le.mpr h
  exact ⟨result_of_gate_fail g pid hn,
    fun ck => result_of_gate_fail { g with checker := ck } pid hn⟩

/-- C3 witness: at the fresh two-player game, player 0 has 0 < 3 steps and
`result` changes nothing. -/
theorem c3_result_gate_skip_witness :
    (game_XO.player 0).count_steps < game_XO.table.param.COMBINATION ∧
    (game_XO.result 0 = (game_XO.game_state, game_XO) ∧
      ∀ ck, ({ game_XO with checker := ck } : Game).result 0 =
        (game_XO.game_state, { game_XO with checker := ck })) :=
  ⟨by decide, c3_result_gate_skip game_XO 0 (by decide)⟩

/-- C5: when `Table.set_symbol_cell` raises an `InvalidMoveError`, that exact
error propagates unmodified through `step` and `step_result`, with no
suppression, wrapping, or retry (and no state change). -/
theorem c5_error_propagation (g : Game) (r c : Nat) (pid : PlayerId)
    (e : InvalidMoveError)
    (hs : g.table.set_symbol_cell r c (g.player pid).symbol = .error e) :
    g.step r c pid = (g, some e) ∧ g.step_result r c pid = (g, .error e) := by
  have hstep : g.step r c pid = (g, some e) := by
    unfold Game.step
    rw [hs]
  exact ⟨hstep, by unfold Game.step_result; rw [hstep]⟩

/-- C5 witness: re-occupying (0,0), already taken by X, propagates
`cell_occupied 0 0` through both entry points. -/
theorem c5_error_propagation_witness :
    c1_g5.table.set_symbol_cell 0 0 (c1_g5.player 1).symbol =
      .error (.cell_occupied 0 0) ∧
    (c1_g5.step 0 0 1 = (c1_g5, some (.cell_occupied 0 0)) ∧
      c1_g5.step_result 0 0 1 = (c1_g5, .error (.cell_occupied 0 0))) :=
  ⟨by rfl, c5_error_propagation c1_g5 0 0 1 (.cell_occupied 0 0) (by rfl)⟩

/-- C6: `step_result` is exactly `step` — which places the player's symbol
via `Table.set_symbol_cell` and then increments that player's step counter by
one — followed by `result` for the same player, returning exactly what that
`result` call returns. -/
theorem c6_step_result_composition (g : Game) (r c : Nat) (pid : PlayerId)
    (t : Table) (hs : g.table.set_symbol_cell r c (g.player pid).symbol = .ok t) :
    g.step r c pid = (({ g with table := t } : Game).add_count_step pid, none) ∧
    (({ g with table := t } : Game).add_count_step pid).players =
      g.players.set pid
        { g.player pid with count_steps := (g.player pid).count_steps + 1 } ∧
    g.step_result r c pid =
      (((({ g with table := t } : Game).add_count_step pid).result pid).2,
        .ok (((({ g with table := t } : Game).add_count_step pid).result pid).1)) := by
  have hstep : g.step r c pid = (({ g with table := t } : Game).add_count_step pid, none) := by
    unfold Game.step
    rw [hs]
  refine ⟨hstep, rfl, ?_⟩
  unfold Game.step_result
  rw [hstep]

/-- C6 witness: X's first move at (0,0) on the fresh board succeeds and
`step_result` equals the composition. -/
theorem c6_step_result_composition_witness :
    game_XO.table.set_symbol_cell 0 0 (game_XO.player 0).symbol = .ok c6w_t ∧
    (game_XO.step 0 0 0 = (({ game_XO with table := c6w_t } : Game).add_count_step 0, none) ∧
      (({ game_XO with table := c6w_t } : Game).add_count_step 0).players =
        game_XO.players.set 0
          { game_XO.player 0 with count_steps := (game_XO.player 0).count_steps + 1 } ∧
      game_XO.step_result 0 0 0 =
        (((({ game_XO with table := c6w_t } : Game).add_count_step 0).result 0).2,
          .ok (((({ game_XO with table := c6w_t } : Game).add_count_step 0).result 0).1))) :=
  ⟨by rfl, c6_step_result_composition game_XO 0 0 0 c6w_t (by rfl)⟩

/-- C7: `ai_get_step` returns exactly what the configured AI strategy
produces from the player's symbol, the current grid and the Table's
combination set (and, being a pure query, changes no state), and
`ai_step_result` computes `ai_get_step` once and applies `step_result` at the
returned row and column for that player. -/
theorem c7_ai_delegation (g : Game) (pid : PlayerId) :
    g.ai_get_step pid = g.ai (g.player pid).symbol g.game_field g.table.combinations ∧
    g.ai_step_result pid =
      g.step_result (g.ai_get_step pid).1 (g.ai_get_step pid).2 pid :=
  ⟨rfl, rfl⟩

/-- C10: `result` mutates at most `game_state`: the post-call game is the
original with only the `game_state` field replaced, so the Table (and its
grid), the players, the checker and the AI are all left unchanged. -/
theorem c10_result_frame (g : Game) (pid : PlayerId) :
    (g.result pid).2 = { g with game_state := (g.result pid).2.game_state } ∧
    (g.result pid).2.table = g.table ∧
    (g.result pid).2.players = g.players := by
  have h : (g.result pid).2 = { g with game_state := (g.result pid).2.game_state } := by
    unfold Game.result Game.set_winner Game.set_draw
    dsimp only
    split
    · split <;> (try rfl) <;> split <;> rfl
    · rfl
  exact ⟨h, by rw [h], by rw [h]⟩

/-- Helper: after `add_count_step`, looking up the same (in-range) player
reference sees the counter incremented by one. -/
theorem player_add_count_step (g : Game) (pid : PlayerId)
    (hpid : pid < g.players.length) :
    (g.add_count_step pid).player pid =
      { g.player pid with count_steps := (g.player pid).count_steps + 1 } := by
  unfold Game.add_count_step Game.player
  dsimp only
  rw [List.getD_eq_getElem?_getD, List.getElem?_set_eq_of_lt _ hpid]
  rfl

/-- Helper: `step` never reads `game_state`; replacing it before the call
replaces it identically after the call, with the same outcome otherwise. -/
theorem step_game_state_irrel (g : Game) (s : GameState) (r c : Nat) (pid : PlayerId) :
    ({ g with game_state := s } : Game).step r c pid =
      ({ (g.step r c pid).1 with game_state := s }, (g.step r c pid).2) := by
  unfold Game.step Game.add_count_step Game.player
  dsimp only
  cases g.table.set_symbol_cell r c ((g.players.getD pid ⟨"", 0⟩).symbol) <;> rfl

/-- C2: with the gate passed (`player.count_steps ≥ run_length`) and the
checker conforming to the Combination contract (a returned combination is a
nonempty sequence of cells, never an empty tuple), `result` transitions to
WINNER via `set_winner` with that player and combination when the checker
returns one, else to ALL_CELLS_USED via `set_draw` when no free cell remains,
else changes nothing; and it always returns the game's `game_state`. -/
theorem c2_result_spec (g : Game) (pid : PlayerId)
    (hgate : g.table.param.COMBINATION ≤ (g.player pid).count_steps)
    (hwf : g.get_win_comb pid ≠ some []) :
    (g.result pid).1 = (g.result pid).2.game_state ∧
    (g.result pid).2 =
      (match g.get_win_comb pid with
        | some comb => g.set_winner pid comb
        | none => if g.table.count_free_cells = 0 then g.set_draw else g) := by
  refine ⟨rfl, ?_⟩
  unfold Game.result
  dsimp only
  rw [if_pos hgate]
  cases hwc : g.get_win_comb pid with
  | none =>
    dsimp only
    simp only [Game.get_draw_result, beq_iff_eq]
  | some comb =>
    cases comb with
    | nil => exact absurd hwc hwf
    | cons a l => rfl

/-- C2 witness: after X's three moves complete row 0, the gate passes, the
checker returns the (nonempty) row-0 combination, and `result` is exactly
`set_winner` for X. -/
theorem c2_result_spec_witness :
    c1_g5.table.param.COMBINATION ≤ (c1_g5.player 0).count_steps ∧
    c1_g5.get_win_comb 0 ≠ some [] ∧
    ((c1_g5.result 0).1 = (c1_g5.result 0).2.game_state ∧
      (c1_g5.result 0).2 =
        (match c1_g5.get_win_comb 0 with
          | some comb => c1_g5.set_winner 0 comb
          | none => if c1_g5.table.count_free_cells = 0 then c1_g5.set_draw else c1_g5)) :=
  ⟨by decide, by decide, c2_result_spec c1_g5 0 (by decide) (by decide)⟩

/-- C9: `step` does not consult `game_state`: in a terminal state a step onto
an in-bounds empty cell still succeeds, places the symbol and increments the
player's counter, leaves `game_state` as it was, and behaves identically
under any replacement of `game_state`. -/
theorem c9_step_ignores_game_state (g : Game) (r c : Nat) (pid : PlayerId)
    (cell : Cell) (hpid : pid < g.players.length)
    (hterm : g.game_state.code ≠ ResultCode.IN_PROGRESS)
    (hcell : g.table.cell? r c = some cell) (hempty : cell.symbol = none) :
    (g.step r c pid).2 = none ∧
    (g.step r c pid).1.game_state = g.game_state ∧
    ((g.step r c pid).1.player pid).count_steps = (g.player pid).count_steps + 1 ∧
    ∀ s : GameState, ({ g with game_state := s } : Game).step r c pid =
      ({ (g.step r c pid).1 with game_state := s }, (g.step r c pid).2) := by
  have hok : ∃ t, g.table.set_symbol_cell r c (g.player pid).symbol = Except.ok t := by
    unfold Table.set_symbol_cell
    rw [hcell]
    dsimp only
    rw [hempty]
    exact ⟨_, rfl⟩
  obtain ⟨t, hok⟩ := hok
  have hstep : g.step r c pid = (({ g with table := t } : Game).add_count_step pid, none) := by
    unfold Game.step
    rw [hok]
  refine ⟨by rw [hstep], by rw [hstep]; rfl, ?_, fun s => step_game_state_irrel g s r c pid⟩
  rw [hstep]
  exact congrArg Player.count_steps
    (player_add_count_step ({ g with table := t } : Game) pid hpid)

/-- C9 witness: with X already declared the winner, O's step onto the empty
cell (2,2) still succeeds exactly as in a live game. -/
theorem c9_step_ignores_game_state_witness :
    1 < c1_won.players.length ∧
    c1_won.game_state.code ≠ ResultCode.IN_PROGRESS ∧
    c1_won.table.cell? 2 2 = some ⟨2, 2, none⟩ ∧
    (⟨2, 2, none⟩ : Cell).symbol = none ∧
    ((c1_won.step 2 2 1).2 = none ∧
      (c1_won.step 2 2 1).1.game_state = c1_won.game_state ∧
      ((c1_won.step 2 2 1).1.player 1).count_steps = (c1_won.player 1).count_steps + 1 ∧
      ∀ s : GameState, ({ c1_won with game_state := s } : Game).step 2 2 1 =
        ({ (c1_won.step 2 2 1).1 with game_state := s }, (c1_won.step 2 2 1).2)) :=
  ⟨by decide, by decide, by decide, by decide,
    c9_step_ignores_game_state c1_won 2 2 1 ⟨2, 2, none⟩ (by decide) (by decide)
      (by decide) (by decide)⟩

/-- C1 counterexample: a reachable game in which X has been declared winner
(code WINNER, win_player 0), after which O completes row 1 by a legal step
and a further `result` call overwrites both `win_player` and
`win_combination` while the code stays terminal. -/
theorem c1_terminal_overwrite_cex :
    (play game_XO [(0, 0, 0), (1, 0, 1), (0, 1, 0), (1, 1, 1), (0, 2, 0)]).isSome = true ∧
    c1_won.game_state.code = ResultCode.WINNER ∧
    c1_won.game_state.win_player = some 0 ∧
    (play c1_won [(1, 2, 1)]).isSome = true ∧
    c1_after.game_state.win_player = some 1 ∧
    c1_after.game_state.win_combination ≠ c1_won.game_state.win_combination := by
  decide

/-- C1 amended: `result` never consults the terminal code, so a terminal
state is preserved by a further `result` call only when that call changes
nothing anyway — when it fails the `count_steps` gate, or when the checker
finds no combination for the player and free cells remain; a later call for
a player who then satisfies the winner or draw condition can overwrite the
terminal state (see the counterexample). -/
theorem c1_result_terminal_frame (g : Game) (pid : PlayerId)
    (hterm : g.game_state.code ≠ ResultCode.IN_PROGRESS)
    (hq : (g.player pid).count_steps < g.table.param.COMBINATION ∨
      (g.get_win_comb pid = none ∧ g.table.count_free_cells ≠ 0)) :
    g.result pid = (g.game_state, g) := by
  cases hq with
  | inl h => exact result_of_gate_fail g pid (Nat.not_le.mpr h)
  | inr h =>
    obtain ⟨hwc, hfree⟩ := h
    unfold Game.result
    dsimp only
    rw [hwc]
    have hdraw : g.get_draw_result = false := by
      unfold Game.get_draw_result
      simpa using hfree
    rw [hdraw]
    split <;> rfl

/-- C1 amended witness: in the game X has just won, a further `result` call
for O (two steps, below the run length) changes nothing. -/
theorem c1_result_terminal_frame_witness :
    c1_won.game_state.code ≠ ResultCode.IN_PROGRESS ∧
    ((c1_won.player 1).count_steps < c1_won.table.param.COMBINATION ∨
      (c1_won.get_win_comb 1 = none ∧ c1_won.table.count_free_cells ≠ 0)) ∧
    c1_won.result 1 = (c1_won.game_state, c1_won) :=
  ⟨by decide, Or.inl (by decide),
    c1_result_terminal_frame c1_won 1 (by decide) (Or.inl (by decide))⟩

/-- Helper: every member of a list of naturals is bounded by its foldr max. -/
theorem le_foldr_max (l : List Nat) (x : Nat) (hx : x ∈ l) :
    x ≤ l.foldr Nat.max 0 := by
  induction l with
  | nil => cases hx
  | cons a t ih =>
    rcases List.mem_cons.mp hx with h | h
    · subst h; exact Nat.le_max_left _ _
    · exact Nat.le_trans (ih h) (Nat.le_max_right _ _)

/-- Helper: a position that holds a symbol is in bounds of the grid. -/
theorem symbol_at_in_bounds (t : Table) (idx : CellIndex) (sym : Symbol)
    (h : symbol_at t.game_field idx = some sym) :
    idx.1 < t.game_field.length ∧ idx.2 < row_len_bound t := by
  unfold symbol_at at h
  cases hb : (t.game_field[idx.1]?).bind (fun row => row[idx.2]?) with
  | none => rw [hb] at h; cases h
  | some cell =>
    obtain ⟨row, hrow, hcell⟩ := Option.bind_eq_some.mp hb
    constructor
    · exact (List.getElem?_eq_some.mp hrow).1
    · have h2 : idx.2 < row.length := (List.getElem?_eq_some.mp hcell).1
      have h3 : row.length ≤ row_len_bound t := by
        unfold row_len_bound
        exact le_foldr_max _ _ (List.mem_map_of_mem List.length (List.getElem?_mem hrow))
      exact Nat.lt_of_lt_of_le h2 h3

/-- Helper: a duplicate-free combination whose every cell holds `sym`
cannot be longer than the number of grid cells holding `sym`. -/
theorem comb_le_symbol_count (t : Table) (sym : Symbol) (comb : CombType)
    (hnd : comb.Nodup)
    (hall : ∀ idx ∈ comb, symbol_at t.game_field idx = some sym) :
    comb.length ≤ t.symbol_count sym := by
  classical
  have hsub : comb.toFinset ⊆
      (Finset.range t.game_field.length ×ˢ Finset.range (row_len_bound t)).filter
        (fun idx => symbol_at t.game_field idx = some sym) := by
    intro idx hidx
    rw [List.mem_toFinset] at hidx
    have hs := hall idx hidx
    have hb := symbol_at_in_bounds t idx sym hs
    exact Finset.mem_filter.mpr
      ⟨Finset.mem_product.mpr ⟨Finset.mem_range.mpr hb.1, Finset.mem_range.mpr hb.2⟩, hs⟩
  calc comb.length = comb.toFinset.card := (List.toFinset_card_of_nodup hnd).symm
    _ ≤ _ := Finset.card_le_card hsub

/-- Helper: when the default checker returns a combination, that combination
belongs to the combination set and every one of its cells holds the symbol. -/
theorem result_player_eq_some (sym : Symbol) (table : List (List Cell))
    (combs : CombsType) (comb : CombType)
    (h : CheckerDefault.result_player sym table combs = some comb) :
    comb ∈ combs ∧ ∀ idx ∈ comb, symbol_at table idx = some sym := by
  unfold CheckerDefault.result_player at h
  refine ⟨List.mem_of_find?_eq_some h, ?_⟩
  have hp := List.find?_some h
  rw [List.all_eq_true] at hp
  intro idx hidx
  simpa using hp idx hidx

/-- C4 counterexample: a game history of nine legal moves in strict four-way
rotation fills the board with no winning line; player 1 holds only 2 steps,
so the gated `result` reports IN_PROGRESS while the ungated variant reports
ALL_CELLS_USED — different returned GameStates and transitions. -/
theorem c4_gate_not_pure_cex :
    (play c4_init c4_moves).isSome = true ∧
    (c4_full.player 1).count_steps < c4_full.table.param.COMBINATION ∧
    c4_full.table.count_free_cells = 0 ∧
    (c4_full.result 1).1 ≠ (c4_full.result_ungated 1).1 ∧
    (c4_full.result 1).2.game_state.code = ResultCode.IN_PROGRESS ∧
    (c4_full.result_ungated 1).2.game_state.code = ResultCode.ALL_CELLS_USED := by
  decide

/-- C4 amended: the gate can only ever suppress a draw transition, never a
winner.  For any game running the default checker whose combinations each
have `run_length` pairwise-distinct cells (as generated ones do) and whose
queried player has made at least as many steps as there are cells holding
that player's symbol (true whenever moves happen only through `step` and
symbols are not shared), the gated and ungated `result` coincide — except
when the board is full and the player's `count_steps` is below the run
length, where ungated declares ALL_CELLS_USED while gated changes nothing. -/
theorem c4_gate_refinement (g : Game) (pid : PlayerId)
    (hchecker : g.checker = CheckerDefault.result_player)
    (hcombs : ∀ comb ∈ g.table.combinations,
      comb.length = g.table.param.COMBINATION ∧ comb.Nodup)
    (hsteps : g.table.symbol_count (g.player pid).symbol ≤ (g.player pid).count_steps) :
    g.result pid = g.result_ungated pid ∨
    ((g.player pid).count_steps < g.table.param.COMBINATION ∧
      g.table.count_free_cells = 0 ∧
      g.result pid = (g.game_state, g) ∧
      g.result_ungated pid = ((g.set_draw).game_state, g.set_draw)) := by
  by_cases hgate : g.table.param.COMBINATION ≤ (g.player pid).count_steps
  · left
    unfold Game.result Game.result_ungated
    dsimp only
    rw [if_pos hgate]
  · have hwin : g.get_win_comb pid = none := by
      cases hwc : g.get_win_comb pid with
      | none => rfl
      | some comb =>
        exfalso
        have hcw : CheckerDefault.result_player (g.player pid).symbol g.table.game_field
            g.table.combinations = some comb := by
          rw [← hchecker]
          exact hwc
        obtain ⟨hmem, hall⟩ := result_player_eq_some _ _ _ _ hcw
        obtain ⟨hlen, hnd⟩ := hcombs comb hmem
        have hle := comb_le_symbol_count g.table (g.player pid).symbol comb hnd hall
        rw [hlen] at hle
        exact hgate (Nat.le_trans hle hsteps)
    by_cases hfree : g.table.count_free_cells = 0
    · right
      refine ⟨Nat.not_le.mp hgate, hfree, result_of_gate_fail g pid hgate, ?_⟩
      unfold Game.result_ungated
      dsimp only
      rw [hwin]
      have hdraw : g.get_draw_result = true := by
        unfold Game.get_draw_result
        simpa using hfree
      rw [hdraw]
      rfl
    · left
      rw [result_of_gate_fail g pid hgate]
      unfold Game.result_ungated
      dsimp only
      rw [hwin]
      have hdraw : g.get_draw_result = false := by
        unfold Game.get_draw_result
        simpa using hfree
      rw [hdraw]
      rfl

/-- C4 amended witness: the fresh two-player game satisfies every hypothesis
(default checker, well-formed generated combinations, 0 symbol cells ≤ 0
steps) and the theorem settles the comparison for player 0. -/
theorem c4_gate_refinement_witness :
    game_XO.checker = CheckerDefault.result_player ∧
    (∀ comb ∈ game_XO.table.combinations,
      comb.length = game_XO.table.param.COMBINATION ∧ comb.Nodup) ∧
    game_XO.table.symbol_count (game_XO.player 0).symbol ≤ (game_XO.player 0).count_steps ∧
    (game_XO.result 0 = game_XO.result_ungated 0 ∨
      ((game_XO.player 0).count_steps < game_XO.table.param.COMBINATION ∧
        game_XO.table.count_free_cells = 0 ∧
        game_XO.result 0 = (game_XO.game_state, game_XO) ∧
        game_XO.result_ungated 0 = ((game_XO.set_draw).game_state, game_XO.set_draw))) :=
  ⟨rfl, by decide, by decide, c4_gate_refinement game_XO 0 rfl (by decide) (by decide)⟩

/-- C8: when `Table.set_symbol_cell` raises, `step` leaves the whole game —
in particular the player's step counter — unchanged: the increment happens
only after a successful placement. -/
theorem c8_failed_step_no_increment (g : Game) (r c : Nat) (pid : PlayerId)
    (e : InvalidMoveError)
    (hs : g.table.set_symbol_cell r c (g.player pid).symbol = .error e) :
    (g.step r c pid).1 = g ∧
    ((g.step r c pid).1.player pid).count_steps = (g.player pid).count_steps := by
  have hstep : g.step r c pid = (g, some e) := by
    unfold Game.step
    rw [hs]
  exact ⟨by rw [hstep], by rw [hstep]⟩

/-- C8 witness: an out-of-bounds move at (5,5) fails and leaves player 0's
step counter at its previous value. -/
theorem c8_failed_step_no_increment_witness :
    game_XO.table.set_symbol_cell 5 5 (game_XO.player 0).symbol =
      .error (.index_out_of_bounds 5 5) ∧
    ((game_XO.step 5 5 0).1 = game_XO ∧
      ((game_XO.step 5 5 0).1.player 0).count_steps = (game_XO.player 0).count_steps) :=
  ⟨by rfl, c8_failed_step_no_increment game_XO 5 5 0 (.index_out_of_bounds 5 5) (by rfl)⟩

end TitatoXO
